import Mathlib

/-!
Shallow embedding of the IconForge icon-generator application
(`script.js` and its near-duplicate copy) in Lean 4.

Browser-host collaborators (canvas text measurement, image encoding,
the DOM, IndexedDB, JSZip) are modelled as explicit function parameters
or explicit state; the application logic itself is translated directly
from the source.
-/

namespace IconForge

/-- Output image format selected by the `input[name="format"]` radios. -/
inductive IconFormat where
  | png
  | jpeg
  | webp
deriving DecidableEq

/-- The string form of a format, as it appears in filenames and MIME types. -/
def IconFormat.str : IconFormat → String
  | .png => "png"
  | .jpeg => "jpeg"
  | .webp => "webp"

/-- Result of `ctx.measureText` for one probed font size: the measured
`width` plus the optional `actualBoundingBoxAscent` / `actualBoundingBoxDescent`
fields (absent on older measurement APIs, hence `Option`).  Lengths are
modelled exactly in tenths of a CSS pixel, so that the JavaScript defaults
`mid * 0.8` and `mid * 0.2` are the integers `8 * mid` and `2 * mid`. -/
structure TextMetrics where
  width : Int
  actualBoundingBoxAscent : Option Int
  actualBoundingBoxDescent : Option Int

/-- One probe of `fitTextToCanvas`: sets the font at size `mid`, measures the
text, defaults a missing ascent to `mid * 0.8` and a missing descent to
`mid * 0.2` (in tenths of a pixel: `8 * mid` and `2 * mid`), and tests
`width <= maxW && height <= maxH`; `maxW`/`maxH` are given in tenths. -/
def measuredFits (measure : Nat → TextMetrics) (maxW maxH : Int) (mid : Nat) : Bool :=
  let metrics := measure mid
  let width := metrics.width
  let ascent := metrics.actualBoundingBoxAscent.getD (8 * (mid : Int))
  let descent := metrics.actualBoundingBoxDescent.getD (2 * (mid : Int))
  let height := ascent + descent
  decide (width ≤ maxW ∧ height ≤ maxH)

/-- Loop state of `fitTextToCanvas`: `let lo = 12; let hi = 420; let best = lo`.
All three stay positive throughout the search (the probe `mid` is always at
least 6 once `lo ≥ 12`), so `Nat` with `Math.floor((lo+hi)/2) = (lo+hi)/2`
and `hi = mid - 1` is a faithful translation of the JavaScript integers. -/
structure FitState where
  lo : Nat
  hi : Nat
  best : Nat
deriving DecidableEq

/-- One iteration of the `for (let i = 0; i < 14; i++)` body of
`fitTextToCanvas`: probe `mid = Math.floor((lo+hi)/2)`; on a fit record
`best = mid; lo = mid + 1`, otherwise `hi = mid - 1`. -/
def fitStep (fits : Nat → Bool) (s : FitState) : FitState :=
  let mid := (s.lo + s.hi) / 2
  if fits mid then ⟨mid + 1, s.hi, mid⟩ else ⟨s.lo, mid - 1, s.best⟩

/-- `n` iterations of the loop body. -/
def fitIter (fits : Nat → Bool) : Nat → FitState → FitState
  | 0, s => s
  | n + 1, s => fitIter fits n (fitStep fits s)

/-- The sizes probed by `n` iterations of the loop, in order. -/
def fitProbes (fits : Nat → Bool) : Nat → FitState → List Nat
  | 0, _ => []
  | n + 1, s => (s.lo + s.hi) / 2 :: fitProbes fits n (fitStep fits s)

/-- The initial loop state of `fitTextToCanvas`. -/
def fitInit : FitState := ⟨12, 420, 12⟩

/-- `fitTextToCanvas(ctx, text, maxW, maxH, style, weight, family)`:
14 binary-search iterations starting from `lo = 12`, `hi = 420`, returning
`best`.  The canvas context together with the fixed text/style/weight/family
is abstracted into the measurement oracle `measure`. -/
def fitTextToCanvas (measure : Nat → TextMetrics) (maxW maxH : Int) : Nat :=
  (fitIter (measuredFits measure maxW maxH) 14 fitInit).best

/-- The probe sequence of one `fitTextToCanvas` run. -/
def fitTextProbes (measure : Nat → TextMetrics) (maxW maxH : Int) : List Nat :=
  fitProbes (measuredFits measure maxW maxH) 14 fitInit

/-- `buildCanvasFont(style, weight, sizePx, family)`:
the CSS font string actually installed on the context before drawing;
note the `Math.max(12, ...)` clamp. -/
def buildCanvasFont (style : String) (weight : Int) (sizePx : Nat) (family : String) : String :=
  style ++ " " ++ toString weight ++ " " ++ toString (max 12 sizePx) ++ "px " ++ family

/-- JavaScript `Math.round`: round half toward positive infinity. -/
def jsRound (q : ℚ) : Int :=
  ⌊q + 1 / 2⌋

/-- The font-weight normalisation of `generateTextIcon`:
`Math.min(900, Math.max(100, Math.round(fontWeight / 100) * 100))`. -/
def normalizeFontWeight (w : Int) : Int :=
  min 900 (max 100 (jsRound ((w : ℚ) / 100) * 100))

/-- One generated icon artifact, as pushed onto `this.generatedIcons`. -/
structure GeneratedIcon where
  size : Nat
  format : IconFormat
  dataUrl : String
  sourceType : String
  timestamp : Nat
  filename : String
deriving DecidableEq

/-- The body of the per-size loop of `generateIcons`: scale-blit the master
image to `size` and encode it (abstracted into `encode`), then build the
artifact record with `filename = icon-(size)x(size).(format)`. -/
def mkIcon (encode : Nat → IconFormat → String) (typ : String) (now : Nat)
    (format : IconFormat) (size : Nat) : GeneratedIcon :=
  { size := size
    format := format
    dataUrl := encode size format
    sourceType := typ
    timestamp := now
    filename := "icon-" ++ toString size ++ "x" ++ toString size ++ "." ++ format.str }

/-- `generateIcons(sourceImage, type)`: sets `this.generatedIcons = []` and then
pushes one artifact per selected size, in selection order.  The previous
artifact list `prev` is the field value being overwritten; the canvas encoding
of the master image is abstracted into `encode`. -/
def generateIcons (encode : Nat → IconFormat → String) (typ : String) (now : Nat)
    (selectedSizes : List Nat) (format : IconFormat)
    (prev : List GeneratedIcon) : List GeneratedIcon :=
  let _ := prev
  selectedSizes.foldl (fun acc size => acc ++ [mkIcon encode typ now format size]) []

/-- JavaScript `String.prototype.trim`: strip leading and trailing
whitespace (structurally recursive so that concrete inputs evaluate). -/
def jsTrim (s : String) : String :=
  ⟨((s.data.dropWhile Char.isWhitespace).reverse.dropWhile Char.isWhitespace).reverse⟩

/-- The parameters with which `generateTextIcon` invokes the canvas rasterizer
after validation succeeds. -/
structure RasterParams where
  text : String
  textColor : String
  bgColor : String
  fontStyle : String
  fontWeight : Int
  fontFamily : String
  fittedPx : Nat
  canvasFont : String
deriving DecidableEq

/-- Outcome of one `generateTextIcon` invocation: either a user-visible
validation error (via `showError`, returning normally), or rasterization
proceeded with the given parameters. -/
inductive TextIconOutcome where
  | validationError (msg : String)
  | generated (params : RasterParams)
deriving DecidableEq

/-- The application state the claims track: the master image and the
generated artifact list. -/
structure AppState where
  currentImage : Option String
  generatedIcons : List GeneratedIcon
deriving DecidableEq

/-- `generateTextIcon()` (the copy with font controls): trims the text, parses
and normalises the font weight, validates (`!text`, then `text.length > 3`,
each showing an error and returning with no state change), and otherwise
rasterizes at the size fitted by `fitTextToCanvas` over the inset box
`512 - 2*48` and regenerates the icons from the resulting master image.
The canvas (`measure`, `render`) and encoder are host collaborators. -/
def generateTextIcon (measure : Nat → TextMetrics)
    (render : RasterParams → String) (encode : Nat → IconFormat → String)
    (now : Nat) (selectedSizes : List Nat) (format : IconFormat)
    (st : AppState) (rawText textColor bgColor fontFamily fontStyle : String)
    (rawWeight : Int) : AppState × TextIconOutcome :=
  let text := jsTrim rawText
  let fontWeight := normalizeFontWeight rawWeight
  if text = "" then
    (st, .validationError "Please enter text for the icon")
  else if text.length > 3 then
    (st, .validationError "Text must be 3 characters or less")
  else
    let padding : Int := 48
    let baseSize : Int := 512
    let inset : Int := 10 * (baseSize - 2 * padding)
    let fittedPx := fitTextToCanvas measure inset inset
    let params : RasterParams :=
      { text := text
        textColor := textColor
        bgColor := bgColor
        fontStyle := fontStyle
        fontWeight := fontWeight
        fontFamily := fontFamily
        fittedPx := fittedPx
        canvasFont := buildCanvasFont fontStyle fontWeight fittedPx fontFamily }
    let image := render params
    ({ currentImage := some image
       generatedIcons := generateIcons encode "text" now selectedSizes format st.generatedIcons },
     .generated params)

/-- The `manifest.json` record written into the download archive. -/
structure ArchiveManifest where
  name : String
  generated : String
  total_icons : Nat
  format : IconFormat
  sizes : List Nat
  icons : List (String × String × IconFormat × String)
deriving DecidableEq

/-- Content of one archive entry: an icon blob fetched from its data URL,
or the serialized archive manifest. -/
inductive ZipContent where
  | blob (dataUrl : String)
  | manifestJson (m : ArchiveManifest)
deriving DecidableEq

/-- One named entry of the JSZip archive. -/
structure ZipEntry where
  name : String
  content : ZipContent
deriving DecidableEq

/-- `zip.file(name, data)`: JSZip replaces an existing entry of the same
name, otherwise appends a new one. -/
def zipFile (entries : List ZipEntry) (name : String) (content : ZipContent) :
    List ZipEntry :=
  if entries.any (fun e => e.name = name) then
    entries.map (fun e => if e.name = name then ⟨name, content⟩ else e)
  else
    entries ++ [⟨name, content⟩]

/-- Result of `downloadAllIcons`: a user-visible error with no archive, or
the entry list of the produced archive. -/
inductive DownloadResult where
  | error (msg : String)
  | archive (entries : List ZipEntry)
deriving DecidableEq

/-- The archive manifest built by `downloadAllIcons`. -/
def archiveManifest (icons : List GeneratedIcon) (selFormat : IconFormat)
    (selSizes : List Nat) (generatedAt : String) : ArchiveManifest :=
  { name := "IconForge Generated Icons"
    generated := generatedAt
    total_icons := icons.length
    format := selFormat
    sizes := selSizes
    icons := icons.map (fun i =>
      (i.filename, toString i.size ++ "x" ++ toString i.size, i.format, i.sourceType)) }

/-- `downloadAllIcons()`: rejects an empty artifact list, then a missing
JSZip; otherwise adds each artifact blob under its filename, then the
manifest under `manifest.json`, and produces the archive.  `selFormat` and
`selSizes` are the current `getSelectedFormat()` / `getSelectedSizes()`. -/
def downloadAllIcons (jszipAvailable : Bool) (icons : List GeneratedIcon)
    (selFormat : IconFormat) (selSizes : List Nat) (generatedAt : String) :
    DownloadResult :=
  if icons.length = 0 then
    .error "No icons to download"
  else if ¬ jszipAvailable then
    .error "JSZip library not loaded. Please refresh the page."
  else
    let zipIcons := icons.foldl (fun z icon => zipFile z icon.filename (.blob icon.dataUrl)) []
    let manifest := archiveManifest icons selFormat selSizes generatedAt
    .archive (zipFile zipIcons "manifest.json" (.manifestJson manifest))

/-- One entry of the `icons` array of the PWA manifest. -/
structure PWAIconEntry where
  src : String
  sizes : String
  type : String
  purpose : String
deriving DecidableEq

/-- The mapping applied to each kept artifact by `generatePWAManifest`. -/
def pwaIconEntry (icon : GeneratedIcon) : PWAIconEntry :=
  { src := icon.filename
    sizes := toString icon.size ++ "x" ++ toString icon.size
    type := "image/" ++ icon.format.str
    purpose := if icon.size ≥ 192 then "maskable any" else "any" }

/-- The PWA web-app manifest document. -/
structure PWAManifest where
  name : String
  short_name : String
  description : String
  start_url : String
  display : String
  orientation : String
  background_color : String
  theme_color : String
  icons : List PWAIconEntry
deriving DecidableEq

/-- `generatePWAManifest()`: errors (`Generate icons first`) on an empty
artifact list, otherwise filters to sizes `>= 72` and maps each kept
artifact to its manifest entry. -/
def generatePWAManifest (icons : List GeneratedIcon) : Option PWAManifest :=
  if icons.length = 0 then
    none
  else
    some
      { name := "Your PWA Application"
        short_name := "PWA App"
        description := "Generated by IconForge - Professional Icon Generator"
        start_url := "/"
        display := "standalone"
        orientation := "portrait-primary"
        background_color := "#ffffff"
        theme_color := "#4F46E5"
        icons := (icons.filter (fun icon => icon.size ≥ 72)).map pwaIconEntry }

/-- One `input[name="iconSize"]` checkbox: its numeric value and state. -/
structure Checkbox where
  value : Nat
  checked : Bool
deriving DecidableEq

/-- The settings-relevant part of the DOM: the size checkboxes in document
order, the values of the `input[name="format"]` radios, and the currently
checked radio (radio-group semantics: at most one checked). -/
structure SettingsUI where
  sizeBoxes : List Checkbox
  formatValues : List String
  checkedFormat : Option String
deriving DecidableEq

/-- `getSelectedSizes()`: values of the checked size checkboxes, in order. -/
def getSelectedSizes (ui : SettingsUI) : List Nat :=
  (ui.sizeBoxes.filter (fun cb => cb.checked)).map (fun cb => cb.value)

/-- `getSelectedFormat()`: the value of the checked format radio, defaulting to
`png`. -/
def getSelectedFormat (ui : SettingsUI) : String :=
  ui.checkedFormat.getD "png"

/-- The persisted `userSettings` record. -/
structure UserSettings where
  selectedSizes : List Nat
  outputFormat : Option String
  timestamp : Nat
deriving DecidableEq

/-- The settings record built by `updateSettings()`. -/
def updateSettings (ui : SettingsUI) (now : Nat) : UserSettings :=
  { selectedSizes := getSelectedSizes ui
    outputFormat := some (getSelectedFormat ui)
    timestamp := now }

/-- `storeSettings(settings)`: a `put` under the fixed key `userSettings`;
last write wins. -/
def storeSettings (db : Option UserSettings) (s : UserSettings) : Option UserSettings :=
  let _ := db
  some s

/-- `applySettings(settings)`: the size checkboxes are rewritten (checked iff
the value is in the stored set) only when the stored list is non-empty;
the format radio is checked only when `outputFormat` is present and a radio
with that value exists. -/
def applySettings (ui : SettingsUI) (s : UserSettings) : SettingsUI :=
  let ui1 :=
    if s.selectedSizes.length > 0 then
      { ui with sizeBoxes := ui.sizeBoxes.map (fun cb =>
          ⟨cb.value, s.selectedSizes.contains cb.value⟩) }
    else ui
  match s.outputFormat with
  | some f => if ui1.formatValues.contains f then { ui1 with checkedFormat := some f } else ui1
  | none => ui1

/-- `loadPersistedData()` restricted to settings: reads the `userSettings`
record and applies it when present. -/
def loadPersistedData (ui : SettingsUI) (db : Option UserSettings) : SettingsUI :=
  match db with
  | some s => applySettings ui s
  | none => ui

/-- An uploaded `File`: its MIME `type`, byte `size` and `name`. -/
structure UploadedFile where
  type : String
  size : Nat
  name : String
deriving DecidableEq

/-- The accepted MIME types of `validateFile`. -/
def validTypes : List String :=
  ["image/jpeg", "image/jpg", "image/png", "image/bmp"]

/-- `validateFile(file)` as in `script.js`: `maxSize = 10 * 1024 * 1024`.
Returns the boolean result together with the `showError` notification
text shown on rejection. -/
def validateFile (file : UploadedFile) : Bool × Option String :=
  if ¬ (validTypes.contains file.type) then
    (false, some "Please select a valid image file (JPEG, PNG, BMP)")
  else if file.size > 10 * 1024 * 1024 then
    (false, some "File size must be less than 10MB")
  else
    (true, none)

/-- `validateFile(file)` as in the duplicate application copy:
`maxSize = 50 * 1024 * 1024`, while the rejection message (and the README)
still says 10MB. -/
def validateFileDup (file : UploadedFile) : Bool × Option String :=
  if ¬ (validTypes.contains file.type) then
    (false, some "Please select a valid image file (JPEG, PNG, BMP)")
  else if file.size > 50 * 1024 * 1024 then
    (false, some "File size must be less than 10MB")
  else
    (true, none)

/-- `processFile(file)` up to its effect on the tracked state: on a failed
validation it returns at once (state untouched, error already shown);
otherwise it decodes the file into the master image and regenerates the
icon list.  Decoding is abstracted into `decodeImage`. -/
def processFile (decodeImage : UploadedFile → String)
    (encode : Nat → IconFormat → String) (now : Nat)
    (selectedSizes : List Nat) (format : IconFormat)
    (st : AppState) (file : UploadedFile) : AppState × Option String :=
  match validateFile file with
  | (false, msg) => (st, msg)
  | (true, _) =>
    let image := decodeImage file
    ({ currentImage := some image
       generatedIcons := generateIcons encode "upload" now selectedSizes format st.generatedIcons },
     none)

/-! ### Test fixtures: concrete host collaborators used by witnesses -/

/-- A measurement oracle with constant metrics far too large for any box:
a text whose rendered width is 1000px (10000 tenths) at every probed size. -/
def measureHuge : Nat → TextMetrics := fun _ => ⟨10000, some 8000, some 2000⟩

/-- A monotone measurement oracle: width `2·size`, ascent `0.8·size`,
descent `0.2·size` (all in tenths of a pixel). -/
def measureLinear : Nat → TextMetrics :=
  fun n => ⟨20 * (n : Int), some (8 * (n : Int)), some (2 * (n : Int))⟩

/-- A concrete stand-in for canvas `toDataURL` encoding. -/
def encodeStub : Nat → IconFormat → String :=
  fun size fmt => "data:" ++ toString size ++ "." ++ fmt.str

/-- A concrete stand-in for rendering the text canvas to a data URL. -/
def renderStub : RasterParams → String :=
  fun p => "img:" ++ p.canvasFont

/-! ### Helper lemmas -/

theorem foldl_push_eq_map {α β : Type} (f : α → β) :
    ∀ (l : List α) (acc : List β),
      l.foldl (fun acc₂ x => acc₂ ++ [f x]) acc = acc ++ l.map f := by
  intro l
  induction l with
  | nil => intro acc; simp
  | cons x xs ih =>
    intro acc
    simp only [List.foldl_cons, List.map_cons, ih]
    simp

theorem generateIcons_eq_map (encode : Nat → IconFormat → String) (typ : String)
    (now : Nat) (sizes : List Nat) (format : IconFormat) (prev : List GeneratedIcon) :
    generateIcons encode typ now sizes format prev
      = sizes.map (mkIcon encode typ now format) := by
  unfold generateIcons
  simpa using foldl_push_eq_map (mkIcon encode typ now format) sizes []

theorem zipFile_append (entries : List ZipEntry) (name : String) (content : ZipContent)
    (h : ∀ e ∈ entries, e.name ≠ name) :
    zipFile entries name content = entries ++ [⟨name, content⟩] := by
  unfold zipFile
  have hc : ¬ (entries.any (fun e => e.name = name) = true) := by
    intro hany
    rcases List.any_eq_true.mp hany with ⟨e, he, hname⟩
    exact h e he (by simpa using hname)
  rw [if_neg hc]

theorem zipIcons_foldl_eq (icons : List GeneratedIcon) :
    ∀ acc : List ZipEntry,
      (icons.map (fun i => i.filename)).Nodup →
      (∀ i ∈ icons, ∀ e ∈ acc, e.name ≠ i.filename) →
      icons.foldl (fun z icon => zipFile z icon.filename (.blob icon.dataUrl)) acc
        = acc ++ icons.map (fun i => ⟨i.filename, .blob i.dataUrl⟩) := by
  induction icons with
  | nil => intro acc _ _; simp
  | cons i is ih =>
    intro acc hnd hacc
    simp only [List.map_cons, List.nodup_cons] at hnd
    simp only [List.foldl_cons]
    rw [zipFile_append acc i.filename (.blob i.dataUrl)
      (fun e he => hacc i (List.mem_cons_self i is) e he)]
    have hside : ∀ j ∈ is,
        ∀ e ∈ acc ++ [(⟨i.filename, ZipContent.blob i.dataUrl⟩ : ZipEntry)],
          e.name ≠ j.filename := by
      intro j hj e he
      rcases List.mem_append.mp he with he | he
      · exact hacc j (List.mem_cons_of_mem i hj) e he
      · simp only [List.mem_singleton] at he
        subst he
        intro heq
        exact hnd.1 (List.mem_map.mpr ⟨j, hj, heq.symm⟩)
    have hrec := ih (acc ++ [(⟨i.filename, ZipContent.blob i.dataUrl⟩ : ZipEntry)]) hnd.2 hside
    rw [hrec]
    simp

theorem fitStep_eq_pos (fits : Nat → Bool) (s : FitState)
    (hf : fits ((s.lo + s.hi) / 2) = true) :
    fitStep fits s = ⟨(s.lo + s.hi) / 2 + 1, s.hi, (s.lo + s.hi) / 2⟩ := by
  simp [fitStep, hf]

theorem fitStep_eq_neg (fits : Nat → Bool) (s : FitState)
    (hf : fits ((s.lo + s.hi) / 2) = false) :
    fitStep fits s = ⟨s.lo, (s.lo + s.hi) / 2 - 1, s.best⟩ := by
  simp [fitStep, hf]

theorem fitProbes_length (fits : Nat → Bool) :
    ∀ (n : Nat) (s : FitState), (fitProbes fits n s).length = n := by
  intro n
  induction n with
  | zero => intro s; rfl
  | succ n ih => intro s; rw [fitProbes]; simp [ih]

theorem fitIter_best_of_never (fits : Nat → Bool) (h : ∀ m, fits m = false) :
    ∀ (n : Nat) (s : FitState), (fitIter fits n s).best = s.best := by
  intro n
  induction n with
  | zero => intro s; rfl
  | succ n ih =>
    intro s
    rw [fitIter, ih, fitStep_eq_neg fits s (h _)]

theorem fitIter_best_fits (fits : Nat → Bool) :
    ∀ (n : Nat) (s : FitState), fits s.best = true →
      fits (fitIter fits n s).best = true := by
  intro n
  induction n with
  | zero => intro s hs; exact hs
  | succ n ih =>
    intro s hs
    rw [fitIter]
    refine ih (fitStep fits s) ?_
    cases hf : fits ((s.lo + s.hi) / 2) with
    | true => rw [fitStep_eq_pos fits s hf]; exact hf
    | false => rw [fitStep_eq_neg fits s hf]; exact hs

/-- Range invariant of the bisection state, valid as soon as the text fits at
the minimum size 12 (so that the upper bound can never drop past 12). -/
def FitInv (s : FitState) : Prop :=
  12 ≤ s.lo ∧ s.lo ≤ 421 ∧ 12 ≤ s.hi ∧ s.hi ≤ 420 ∧ 12 ≤ s.best ∧ s.best ≤ 420

theorem fitStep_inv (fits : Nat → Bool) (h12 : fits 12 = true)
    (s : FitState) (hs : FitInv s) : FitInv (fitStep fits s) := by
  obtain ⟨h1, h2, h3, h4, h5, h6⟩ := hs
  cases hf : fits ((s.lo + s.hi) / 2) with
  | true =>
    rw [fitStep_eq_pos fits s hf]
    refine ⟨?_, ?_, h3, h4, ?_, ?_⟩
    · show 12 ≤ (s.lo + s.hi) / 2 + 1
      omega
    · show (s.lo + s.hi) / 2 + 1 ≤ 421
      omega
    · show 12 ≤ (s.lo + s.hi) / 2
      omega
    · show (s.lo + s.hi) / 2 ≤ 420
      omega
  | false =>
    rw [fitStep_eq_neg fits s hf]
    have hne : (s.lo + s.hi) / 2 ≠ 12 := by
      intro heq
      rw [heq, h12] at hf
      simp at hf
    refine ⟨h1, h2, ?_, ?_, h5, h6⟩
    · show 12 ≤ (s.lo + s.hi) / 2 - 1
      omega
    · show (s.lo + s.hi) / 2 - 1 ≤ 420
      omega

theorem fitIter_inv (fits : Nat → Bool) (h12 : fits 12 = true) :
    ∀ (n : Nat) (s : FitState), FitInv s → FitInv (fitIter fits n s) := by
  intro n
  induction n with
  | zero => intro s hs; exact hs
  | succ n ih =>
    intro s hs
    rw [fitIter]
    exact ih (fitStep fits s) (fitStep_inv fits h12 s hs)

/-- Invariant holding from the first successful probe on: the recorded `best`
fits, sits strictly below `lo`, and is at most `hi + 1`; the window never
inverts by more than 2. -/
def FitWf (fits : Nat → Bool) (s : FitState) : Prop :=
  fits s.best = true ∧ s.best + 1 ≤ s.lo ∧ s.best ≤ s.hi + 1 ∧ s.lo ≤ s.hi + 2

theorem fitStep_wf (fits : Nat → Bool) (s : FitState) (h : FitWf fits s) :
    FitWf fits (fitStep fits s) ∧ s.best ≤ (fitStep fits s).best := by
  obtain ⟨hb, hbl, hbh, hlh⟩ := h
  cases hf : fits ((s.lo + s.hi) / 2) with
  | true =>
    rw [fitStep_eq_pos fits s hf]
    refine ⟨⟨hf, le_refl _, ?_, ?_⟩, ?_⟩
    · show (s.lo + s.hi) / 2 ≤ s.hi + 1
      omega
    · show (s.lo + s.hi) / 2 + 1 ≤ s.hi + 2
      omega
    · show s.best ≤ (s.lo + s.hi) / 2
      omega
  | false =>
    rw [fitStep_eq_neg fits s hf]
    refine ⟨⟨hb, hbl, ?_, ?_⟩, le_refl _⟩
    · show s.best ≤ (s.lo + s.hi) / 2 - 1 + 1
      omega
    · show s.lo ≤ (s.lo + s.hi) / 2 - 1 + 2
      omega

theorem fitIter_wf (fits : Nat → Bool) :
    ∀ (n : Nat) (s : FitState), FitWf fits s →
      FitWf fits (fitIter fits n s) ∧ s.best ≤ (fitIter fits n s).best := by
  intro n
  induction n with
  | zero => intro s hs; exact ⟨hs, le_refl _⟩
  | succ n ih =>
    intro s hs
    rw [fitIter]
    obtain ⟨hw, hle⟩ := fitStep_wf fits s hs
    obtain ⟨hw2, hle2⟩ := ih (fitStep fits s) hw
    exact ⟨hw2, le_trans hle hle2⟩

theorem fitProbes_le_best_of_wf (fits : Nat → Bool) :
    ∀ (n : Nat) (s : FitState), FitWf fits s →
      ∀ p ∈ fitProbes fits n s, fits p = true → p ≤ (fitIter fits n s).best := by
  intro n
  induction n with
  | zero => intro s _ p hp; rw [fitProbes] at hp; simp at hp
  | succ n ih =>
    intro s hwf p hp hfp
    rw [fitProbes] at hp
    rw [fitIter]
    rcases List.mem_cons.mp hp with hp | hp
    · subst hp
      have hstep := fitStep_eq_pos fits s hfp
      have hwf2 := (fitStep_wf fits s hwf).1
      have h3 := (fitIter_wf fits n (fitStep fits s) hwf2).2
      have h2 : (fitStep fits s).best = (s.lo + s.hi) / 2 := by rw [hstep]
      omega
    · exact ih (fitStep fits s) (fitStep_wf fits s hwf).1 p hp hfp

theorem fitProbes_le_best_init (fits : Nat → Bool) :
    ∀ (n : Nat) (s : FitState), s.best = s.lo → s.lo ≤ s.hi + 2 →
      ∀ p ∈ fitProbes fits n s, fits p = true → p ≤ (fitIter fits n s).best := by
  intro n
  induction n with
  | zero => intro s _ _ p hp; rw [fitProbes] at hp; simp at hp
  | succ n ih =>
    intro s hbl hlh p hp hfp
    rw [fitProbes] at hp
    rw [fitIter]
    rcases List.mem_cons.mp hp with hp | hp
    · subst hp
      have hstep := fitStep_eq_pos fits s hfp
      have hwf2 : FitWf fits (fitStep fits s) := by
        rw [hstep]
        refine ⟨hfp, le_refl _, ?_, ?_⟩
        · show (s.lo + s.hi) / 2 ≤ s.hi + 1
          omega
        · show (s.lo + s.hi) / 2 + 1 ≤ s.hi + 2
          omega
      have h3 := (fitIter_wf fits n (fitStep fits s) hwf2).2
      have h2 : (fitStep fits s).best = (s.lo + s.hi) / 2 := by rw [hstep]
      omega
    · cases hf : fits ((s.lo + s.hi) / 2) with
      | true =>
        have hstep := fitStep_eq_pos fits s hf
        have hwf2 : FitWf fits (fitStep fits s) := by
          rw [hstep]
          refine ⟨hf, le_refl _, ?_, ?_⟩
          · show (s.lo + s.hi) / 2 ≤ s.hi + 1
            omega
          · show (s.lo + s.hi) / 2 + 1 ≤ s.hi + 2
            omega
        exact fitProbes_le_best_of_wf fits n (fitStep fits s) hwf2 p hp hfp
      | false =>
        have hstep := fitStep_eq_neg fits s hf
        refine ih (fitStep fits s) ?_ ?_ p hp hfp
        · rw [hstep]; exact hbl
        · rw [hstep]
          show s.lo ≤ (s.lo + s.hi) / 2 - 1 + 2
          omega

theorem fitIter_best_mem (fits : Nat → Bool) :
    ∀ (n : Nat) (s : FitState),
      (fitIter fits n s).best = s.best ∨
        (fitIter fits n s).best ∈ fitProbes fits n s := by
  intro n
  induction n with
  | zero => intro s; left; rfl
  | succ n ih =>
    intro s
    rw [fitIter, fitProbes]
    rcases ih (fitStep fits s) with h | h
    · cases hf : fits ((s.lo + s.hi) / 2) with
      | true =>
        right
        rw [h, fitStep_eq_pos fits s hf]
        exact List.mem_cons_self _ _
      | false =>
        left
        rw [h, fitStep_eq_neg fits s hf]
    · right
      exact List.mem_cons_of_mem _ h

theorem jsRound_bounds (w : Int) :
    100 * jsRound ((w : ℚ) / 100) ≤ w + 50 ∧
      w + 50 < 100 * jsRound ((w : ℚ) / 100) + 100 := by
  have hfl := Int.floor_le ((w : ℚ) / 100 + 1 / 2)
  have hlt := Int.lt_floor_add_one ((w : ℚ) / 100 + 1 / 2)
  have hq : (100 : ℚ) * ((w : ℚ) / 100) = (w : ℚ) := by ring
  constructor
  · have h : (100 : ℚ) * (jsRound ((w : ℚ) / 100) : ℚ) ≤ (w : ℚ) + 50 := by
      unfold jsRound
      nlinarith [hfl, hq]
    exact_mod_cast h
  · have h : (w : ℚ) + 50 < 100 * (jsRound ((w : ℚ) / 100) : ℚ) + 100 := by
      unfold jsRound
      nlinarith [hlt, hq]
    exact_mod_cast h

/-! ### Claim theorems -/

/-- C2: for every (non-empty) selected size list and chosen format,
`generateIcons` discards the previous artifact list entirely and returns one
artifact per requested size, in order, with the active format and filename
`icon-(size)x(size).(format)`; the result does not depend on the previous
list, so no element of an earlier run survives. -/
theorem generateIcons_spec (encode : Nat → IconFormat → String) (typ : String)
    (now : Nat) (sizes : List Nat) (format : IconFormat)
    (prev prevOther : List GeneratedIcon) (hne : sizes ≠ []) :
    (generateIcons encode typ now sizes format prev).length = sizes.length ∧
    (∀ i : Nat, (generateIcons encode typ now sizes format prev)[i]?
        = (sizes[i]?).map (mkIcon encode typ now format)) ∧
    (∀ a ∈ generateIcons encode typ now sizes format prev,
      a.format = format ∧
      a.filename = "icon-" ++ toString a.size ++ "x" ++ toString a.size
          ++ "." ++ format.str ∧
      a.timestamp = now) ∧
    generateIcons encode typ now sizes format prev
      = generateIcons encode typ now sizes format prevOther := by
  have hmap := generateIcons_eq_map encode typ now sizes format prev
  have hmap2 := generateIcons_eq_map encode typ now sizes format prevOther
  rw [hmap, hmap2]
  refine ⟨List.length_map _ _, ?_, ?_, rfl⟩
  · intro i
    exact List.getElem?_map _ _ _
  · intro a ha
    rcases List.mem_map.mp ha with ⟨sz, _, rfl⟩
    exact ⟨rfl, rfl, rfl⟩

/-- Witness for C2 at the concrete size list `[16, 192]`. -/
theorem generateIcons_spec_witness :
    (generateIcons encodeStub "upload" 7 [16, 192] IconFormat.png []).length = 2 ∧
    (generateIcons encodeStub "upload" 7 [16, 192] IconFormat.png [])[0]?
      = some (mkIcon encodeStub "upload" 7 IconFormat.png 16) := by
  have h := generateIcons_spec encodeStub "upload" 7 [16, 192] IconFormat.png [] []
    (by decide)
  refine ⟨h.1, ?_⟩
  rw [h.2.1 0]
  rfl

/-- C4: on a non-empty artifact list, the `icons` array of the PWA manifest is
exactly the artifacts of size at least 72 mapped to manifest entries, and an
entry has `purpose` equal to `maskable any` precisely when the artifact size is at
least 192 (otherwise `any`). -/
theorem generatePWAManifest_spec (icons : List GeneratedIcon) (hne : icons ≠ []) :
    ∃ m, generatePWAManifest icons = some m ∧
      m.icons = (icons.filter (fun i => i.size ≥ 72)).map pwaIconEntry ∧
      (∀ e ∈ m.icons, ∃ i, i ∈ icons ∧ 72 ≤ i.size ∧ e = pwaIconEntry i) ∧
      (∀ i ∈ icons, 72 ≤ i.size → pwaIconEntry i ∈ m.icons) ∧
      (∀ i : GeneratedIcon,
        ((pwaIconEntry i).purpose = "maskable any" ↔ 192 ≤ i.size) ∧
        (¬ 192 ≤ i.size → (pwaIconEntry i).purpose = "any")) := by
  have hlen : ¬ icons.length = 0 := by
    simpa [List.length_eq_zero] using hne
  unfold generatePWAManifest
  rw [if_neg hlen]
  refine ⟨_, rfl, rfl, ?_, ?_, ?_⟩
  · intro e he
    rcases List.mem_map.mp he with ⟨i, hi, rfl⟩
    rcases List.mem_filter.mp hi with ⟨hmem, hsz⟩
    exact ⟨i, hmem, by simpa using hsz, rfl⟩
  · intro i hi hsz
    exact List.mem_map.mpr ⟨i, List.mem_filter.mpr ⟨hi, by simpa using hsz⟩, rfl⟩
  · intro i
    by_cases h : 192 ≤ i.size
    · constructor
      · simp [pwaIconEntry, h]
      · intro hc
        exact absurd h hc
    · constructor
      · simp [pwaIconEntry, h]
      · intro _
        simp [pwaIconEntry, h]

/-- Witness for C4 on a concrete artifact list with sizes 16, 72 and 192. -/
theorem generatePWAManifest_spec_witness :
    ∃ m, generatePWAManifest
        [mkIcon encodeStub "upload" 0 IconFormat.png 16,
         mkIcon encodeStub "upload" 0 IconFormat.png 72,
         mkIcon encodeStub "upload" 0 IconFormat.png 192] = some m ∧
      m.icons =
        [pwaIconEntry (mkIcon encodeStub "upload" 0 IconFormat.png 72),
         pwaIconEntry (mkIcon encodeStub "upload" 0 IconFormat.png 192)] := by
  obtain ⟨m, hm, hicons, _, _, _⟩ := generatePWAManifest_spec
    [mkIcon encodeStub "upload" 0 IconFormat.png 16,
     mkIcon encodeStub "upload" 0 IconFormat.png 72,
     mkIcon encodeStub "upload" 0 IconFormat.png 192] (by decide)
  refine ⟨m, hm, ?_⟩
  rw [hicons]
  rfl

/-- C10: `applySettings` ignores a persisted empty selected-size list (every
checkbox keeps its prior state), and when `outputFormat` is also absent the
whole settings UI is left untouched. -/
theorem applySettings_empty_frame (ui : SettingsUI) (s : UserSettings)
    (hempty : s.selectedSizes = []) :
    (applySettings ui s).sizeBoxes = ui.sizeBoxes ∧
    (applySettings ui s).formatValues = ui.formatValues ∧
    (s.outputFormat = none → applySettings ui s = ui) := by
  cases hof : s.outputFormat with
  | none =>
    have h : applySettings ui s = ui := by
      unfold applySettings
      rw [hempty, hof]
      rfl
    rw [h]
    exact ⟨rfl, rfl, fun _ => rfl⟩
  | some f =>
    refine ⟨?_, ?_, ?_⟩
    · unfold applySettings
      rw [hempty, hof]
      by_cases hfv : f ∈ ui.formatValues
      · simp [hfv]
      · simp [hfv]
    · unfold applySettings
      rw [hempty, hof]
      by_cases hfv : f ∈ ui.formatValues
      · simp [hfv]
      · simp [hfv]
    · intro hc
      cases hc

/-- Witness for C10 at a concrete UI and an empty persisted size set. -/
theorem applySettings_empty_frame_witness :
    (applySettings ⟨[⟨16, true⟩, ⟨32, false⟩], ["png", "jpeg", "webp"], some "png"⟩
        ⟨[], none, 5⟩).sizeBoxes = [⟨16, true⟩, ⟨32, false⟩] ∧
    applySettings ⟨[⟨16, true⟩, ⟨32, false⟩], ["png", "jpeg", "webp"], some "png"⟩
        ⟨[], none, 5⟩
      = ⟨[⟨16, true⟩, ⟨32, false⟩], ["png", "jpeg", "webp"], some "png"⟩ := by
  have h := applySettings_empty_frame
    ⟨[⟨16, true⟩, ⟨32, false⟩], ["png", "jpeg", "webp"], some "png"⟩
    ⟨[], none, 5⟩ (by decide)
  exact ⟨h.1, h.2.2 rfl⟩

/-- C5: `generateTextIcon` rejects a trimmed-empty text and a trimmed text
longer than 3 characters with a user-visible error and leaves the state
(master image and artifact list) unchanged, returning normally; for a trimmed
text of length 1 to 3 it proceeds to rasterization and regenerates the
artifact list. -/
theorem generateTextIcon_validation
    (measure : Nat → TextMetrics) (render : RasterParams → String)
    (encode : Nat → IconFormat → String) (now : Nat)
    (sizes : List Nat) (format : IconFormat) (st : AppState)
    (rawText tc bc ff fs : String) (w : Int) :
    (jsTrim rawText = "" →
      generateTextIcon measure render encode now sizes format st rawText tc bc ff fs w
        = (st, .validationError "Please enter text for the icon")) ∧
    (jsTrim rawText ≠ "" → 3 < (jsTrim rawText).length →
      generateTextIcon measure render encode now sizes format st rawText tc bc ff fs w
        = (st, .validationError "Text must be 3 characters or less")) ∧
    (jsTrim rawText ≠ "" → (jsTrim rawText).length ≤ 3 →
      ∃ p : RasterParams,
        (generateTextIcon measure render encode now sizes format st rawText tc bc ff fs w).2
            = .generated p ∧
        p.text = jsTrim rawText ∧
        (generateTextIcon measure render encode now sizes format st
            rawText tc bc ff fs w).1.generatedIcons
          = generateIcons encode "text" now sizes format st.generatedIcons) := by
  refine ⟨?_, ?_, ?_⟩
  · intro h
    simp only [generateTextIcon]
    rw [if_pos h]
  · intro h hl
    simp only [generateTextIcon]
    rw [if_neg h, if_pos hl]
  · intro h hl
    simp only [generateTextIcon]
    rw [if_neg h, if_neg (by omega : ¬ (jsTrim rawText).length > 3)]
    exact ⟨_, rfl, rfl, rfl⟩

/-- Witness for C5 at the raw text `" ab "` (trimmed length 2): the emitter
runs on the rasterized master image. -/
theorem generateTextIcon_validation_witness :
    (generateTextIcon measureLinear renderStub encodeStub 0 [16] IconFormat.png
        ⟨none, []⟩ " ab " "#000" "#fff" "Inter" "normal" 700).1.generatedIcons
      = generateIcons encodeStub "text" 0 [16] IconFormat.png [] := by
  obtain ⟨p, _, _, hicons⟩ :=
    (generateTextIcon_validation measureLinear renderStub encodeStub 0 [16]
      IconFormat.png ⟨none, []⟩ " ab " "#000" "#fff" "Inter" "normal" 700).2.2
      (by decide) (by decide)
  exact hicons

/-- C6: divergence of the duplicate copy of `validateFile` from the stated
(and self-documented) 10MB ceiling: a 20MB PNG is rejected by the
`script.js` version but accepted by the duplicate copy, whose own rejection
message still reads `File size must be less than 10MB`. -/
theorem validateFile_sizeLimit_bug :
    (validateFile ⟨"image/png", 20 * 1024 * 1024, "big.png"⟩).1 = false ∧
    (validateFile ⟨"image/png", 20 * 1024 * 1024, "big.png"⟩).2
        = some "File size must be less than 10MB" ∧
    (validateFileDup ⟨"image/png", 20 * 1024 * 1024, "big.png"⟩).1 = true ∧
    (validateFileDup ⟨"image/png", 20 * 1024 * 1024, "big.png"⟩).2 = none ∧
    10 * 1024 * 1024 < 20 * 1024 * 1024 ∧
    (∀ file : UploadedFile,
      ((validateFile file).1 = true ↔
        (validTypes.contains file.type = true ∧ file.size ≤ 10 * 1024 * 1024))) := by
  refine ⟨by decide, by decide, by decide, by decide, by norm_num, ?_⟩
  intro file
  unfold validateFile
  by_cases ht : validTypes.contains file.type = true
  · rw [if_neg (not_not_intro ht)]
    by_cases hs : file.size > 10 * 1024 * 1024
    · rw [if_pos hs]
      constructor
      · intro hc
        exact Bool.noConfusion hc
      · rintro ⟨-, hsize⟩
        exact absurd hsize (by omega)
    · rw [if_neg hs]
      constructor
      · intro _
        exact ⟨ht, by omega⟩
      · intro _
        rfl
  · rw [if_pos ht]
    constructor
    · intro hc
      exact Bool.noConfusion hc
    · rintro ⟨hc, -⟩
      exact absurd hc ht

/-- C8: the font weight actually passed on to measurement and drawing is
`min(900, max(100, round(w/100)*100))`: a multiple of 100 in `[100, 900]`
nearest to the input weight. -/
theorem fontWeight_normalized (w : Int) :
    (∃ k : Int, 1 ≤ k ∧ k ≤ 9 ∧ normalizeFontWeight w = 100 * k) ∧
    (∀ k : Int, 1 ≤ k → k ≤ 9 →
      (w - normalizeFontWeight w).natAbs ≤ (w - 100 * k).natAbs) ∧
    (∀ measure render encode now sizes format st rawText tc bc ff fs p,
      (generateTextIcon measure render encode now sizes format st
          rawText tc bc ff fs w).2 = .generated p →
      p.fontWeight = normalizeFontWeight w) := by
  obtain ⟨hlb, hub⟩ := jsRound_bounds w
  have hdef : normalizeFontWeight w
      = min 900 (max 100 (jsRound ((w : ℚ) / 100) * 100)) := rfl
  refine ⟨⟨min 9 (max 1 (jsRound ((w : ℚ) / 100))), by omega, by omega, ?_⟩, ?_, ?_⟩
  · rw [hdef]
    omega
  · intro k h1 h9
    rw [hdef]
    omega
  · intro measure render encode now sizes format st rawText tc bc ff fs p hgen
    simp only [generateTextIcon] at hgen
    by_cases h1 : jsTrim rawText = ""
    · rw [if_pos h1] at hgen
      cases hgen
    · rw [if_neg h1] at hgen
      by_cases h2 : (jsTrim rawText).length > 3
      · rw [if_pos h2] at hgen
        cases hgen
      · rw [if_neg h2] at hgen
        have hp := (TextIconOutcome.generated.injEq _ _).mp hgen
        rw [← hp]

/-- Witness for C8 at the concrete input weight 333 and competitor
multiple 700. -/
theorem fontWeight_normalized_witness :
    normalizeFontWeight 333 = 100 * 3 ∧
    ((333 : Int) - normalizeFontWeight 333).natAbs
      ≤ ((333 : Int) - 100 * 7).natAbs := by
  refine ⟨?_, (fontWeight_normalized 333).2.1 7 (by norm_num) (by norm_num)⟩
  norm_num [normalizeFontWeight, jsRound]

/-- C3: with JSZip present and at least one artifact (emitter output has
pairwise-distinct filenames, none equal to `manifest.json`), the archive is
exactly the N icon entries followed by one `manifest.json` entry, N+1 entries
in total, and the manifest field `total_icons` equals N; an empty artifact list
or a missing JSZip yields a user-visible error and no archive. -/
theorem downloadAllIcons_spec (jszip : Bool) (icons : List GeneratedIcon)
    (fmt : IconFormat) (sizes : List Nat) (ts : String)
    (hne : icons ≠ [])
    (hnd : (icons.map (fun i => i.filename)).Nodup)
    (hmf : ∀ i ∈ icons, i.filename ≠ "manifest.json") :
    (downloadAllIcons true icons fmt sizes ts
        = .archive ((icons.map fun i => (⟨i.filename, .blob i.dataUrl⟩ : ZipEntry))
            ++ [⟨"manifest.json", .manifestJson (archiveManifest icons fmt sizes ts)⟩])) ∧
    ((icons.map fun i => (⟨i.filename, .blob i.dataUrl⟩ : ZipEntry))
        ++ [(⟨"manifest.json", .manifestJson (archiveManifest icons fmt sizes ts)⟩ :
              ZipEntry)]).length
      = icons.length + 1 ∧
    (archiveManifest icons fmt sizes ts).total_icons = icons.length ∧
    downloadAllIcons jszip [] fmt sizes ts = .error "No icons to download" ∧
    downloadAllIcons false icons fmt sizes ts
      = .error "JSZip library not loaded. Please refresh the page." := by
  have hlen : ¬ icons.length = 0 := by
    simpa [List.length_eq_zero] using hne
  refine ⟨?_, by simp, rfl, rfl, ?_⟩
  · simp only [downloadAllIcons]
    rw [if_neg hlen, if_neg (by simp)]
    have hfold := zipIcons_foldl_eq icons [] hnd
      (by intro i _ e he; cases he)
    rw [hfold, List.nil_append]
    have hside : ∀ e ∈ icons.map (fun i => (⟨i.filename, .blob i.dataUrl⟩ : ZipEntry)),
        e.name ≠ "manifest.json" := by
      intro e he
      rcases List.mem_map.mp he with ⟨i, hi, rfl⟩
      exact hmf i hi
    rw [zipFile_append _ _ _ hside]
  · simp only [downloadAllIcons]
    rw [if_neg hlen, if_pos (by simp)]

/-- Witness for C3 on a single concrete artifact. -/
theorem downloadAllIcons_spec_witness :
    downloadAllIcons true [mkIcon encodeStub "upload" 0 IconFormat.png 16]
        IconFormat.png [16] "2026"
      = .archive
          [⟨(mkIcon encodeStub "upload" 0 IconFormat.png 16).filename,
            .blob (mkIcon encodeStub "upload" 0 IconFormat.png 16).dataUrl⟩,
           ⟨"manifest.json", .manifestJson (archiveManifest
              [mkIcon encodeStub "upload" 0 IconFormat.png 16]
              IconFormat.png [16] "2026")⟩] := by
  have h := downloadAllIcons_spec true [mkIcon encodeStub "upload" 0 IconFormat.png 16]
    IconFormat.png [16] "2026" (by decide) (by decide) (by decide)
  exact h.1

/-- C7 counterexample: a settings record with an empty selected-size set is
written and reloaded, but the previously checked 16px checkbox stays checked
even though 16 is not in the stored (empty) set, so the round trip does not
restore the stored selection. -/
theorem settings_roundtrip_counterexample :
    (loadPersistedData ⟨[⟨16, true⟩], ["png"], some "png"⟩
        (storeSettings none ⟨[], some "png", 0⟩)).sizeBoxes = [⟨16, true⟩] ∧
    ¬ (16 : Nat) ∈ ([] : List Nat) := by
  exact ⟨rfl, by decide⟩

/-- C7 (amended): for every stored record whose selected-size list is
non-empty and whose format is one of the radio values, reloading restores
each checkbox to checked iff its value is in the stored set, and restores the
stored format; the selected values afterwards are exactly the stored ones
that have a checkbox. -/
theorem settings_roundtrip (db : Option UserSettings) (ui : SettingsUI)
    (s : UserSettings) (f : String)
    (hsz : s.selectedSizes ≠ [])
    (hf : s.outputFormat = some f)
    (hfv : ui.formatValues.contains f = true) :
    (∀ cb ∈ (loadPersistedData ui (storeSettings db s)).sizeBoxes,
        cb.checked = s.selectedSizes.contains cb.value) ∧
    (loadPersistedData ui (storeSettings db s)).checkedFormat = some f ∧
    getSelectedFormat (loadPersistedData ui (storeSettings db s)) = f ∧
    (∀ v : Nat, v ∈ getSelectedSizes (loadPersistedData ui (storeSettings db s))
        ↔ (v ∈ s.selectedSizes ∧ v ∈ ui.sizeBoxes.map (fun cb => cb.value))) := by
  have hlen : s.selectedSizes.length > 0 := List.length_pos.mpr hsz
  have happ : loadPersistedData ui (storeSettings db s)
      = { sizeBoxes := ui.sizeBoxes.map (fun cb =>
            ⟨cb.value, s.selectedSizes.contains cb.value⟩),
          formatValues := ui.formatValues,
          checkedFormat := some f } := by
    show applySettings ui s = _
    unfold applySettings
    rw [hf, if_pos hlen]
    dsimp only
    rw [if_pos hfv]
  rw [happ]
  refine ⟨?_, rfl, rfl, ?_⟩
  · intro cb hcb
    rcases List.mem_map.mp hcb with ⟨cb0, _, rfl⟩
    rfl
  · intro v
    constructor
    · intro hv
      rcases List.mem_map.mp hv with ⟨cb, hcb, rfl⟩
      rcases List.mem_filter.mp hcb with ⟨hmem, hchk⟩
      rcases List.mem_map.mp hmem with ⟨cb0, hcb0, rfl⟩
      refine ⟨by simpa using hchk, List.mem_map.mpr ⟨cb0, hcb0, rfl⟩⟩
    · rintro ⟨hvs, hvui⟩
      rcases List.mem_map.mp hvui with ⟨cb0, hcb0, rfl⟩
      refine List.mem_map.mpr ⟨⟨cb0.value, s.selectedSizes.contains cb0.value⟩, ?_, rfl⟩
      refine List.mem_filter.mpr ⟨List.mem_map.mpr ⟨cb0, hcb0, rfl⟩, ?_⟩
      simpa using hvs

/-- Witness for C7 at a concrete UI and the stored record `{[32, 64], png}`. -/
theorem settings_roundtrip_witness :
    (loadPersistedData
        ⟨[⟨16, true⟩, ⟨32, false⟩, ⟨64, false⟩], ["png", "jpeg"], some "jpeg"⟩
        (storeSettings none ⟨[32, 64], some "png", 1⟩)).checkedFormat = some "png" ∧
    getSelectedFormat (loadPersistedData
        ⟨[⟨16, true⟩, ⟨32, false⟩, ⟨64, false⟩], ["png", "jpeg"], some "jpeg"⟩
        (storeSettings none ⟨[32, 64], some "png", 1⟩)) = "png" := by
  have h := settings_roundtrip none
    ⟨[⟨16, true⟩, ⟨32, false⟩, ⟨64, false⟩], ["png", "jpeg"], some "jpeg"⟩
    ⟨[32, 64], some "png", 1⟩ "png" (by decide) rfl (by decide)
  exact ⟨h.2.1, h.2.2.1⟩

/-- C1 counterexample: for a text/font whose measured width is 1000px at
every probed size — wider than the 416px inset box even at the minimum
size — `fitTextToCanvas` returns 12, no probed size fit, and the rendered
bounding box at the returned size does not fit within the inset area. -/
theorem fitTextToCanvas_overflow_counterexample :
    fitTextToCanvas measureHuge 4160 4160 = 12 ∧
    measuredFits measureHuge 4160 4160 12 = false ∧
    measuredFits measureHuge 4160 4160 (fitTextToCanvas measureHuge 4160 4160) = false := by
  exact ⟨by decide, by decide, by decide⟩

/-- C1 (amended): `fitTextToCanvas` always runs exactly 14 bisection probes
starting from bounds `[12, 420]`; each probe tests measured width and
ascent+descent height (with 0.8x/0.2x defaults) against the box; provided
the text fits at the minimum size 12, the returned size lies in `[12, 420]`,
its rendered bounding box fits within the box, it is at least every probed
size that fit, and it is either 12 or one of the probed sizes. -/
theorem fitTextToCanvas_spec (measure : Nat → TextMetrics) (maxW maxH : Int)
    (h12 : measuredFits measure maxW maxH 12 = true) :
    (fitTextProbes measure maxW maxH).length = 14 ∧
    12 ≤ fitTextToCanvas measure maxW maxH ∧
    fitTextToCanvas measure maxW maxH ≤ 420 ∧
    measuredFits measure maxW maxH (fitTextToCanvas measure maxW maxH) = true ∧
    (∀ p ∈ fitTextProbes measure maxW maxH,
      measuredFits measure maxW maxH p = true →
        p ≤ fitTextToCanvas measure maxW maxH) ∧
    (fitTextToCanvas measure maxW maxH = 12 ∨
      fitTextToCanvas measure maxW maxH ∈ fitTextProbes measure maxW maxH) ∧
    (∀ m : Nat, measuredFits measure maxW maxH m = true ↔
      ((measure m).width ≤ maxW ∧
        (measure m).actualBoundingBoxAscent.getD (8 * (m : Int))
          + (measure m).actualBoundingBoxDescent.getD (2 * (m : Int)) ≤ maxH)) := by
  have hinv := fitIter_inv (measuredFits measure maxW maxH) h12 14 fitInit
    (by refine ⟨?_, ?_, ?_, ?_, ?_, ?_⟩ <;> decide)
  refine ⟨fitProbes_length _ 14 fitInit, hinv.2.2.2.2.1, hinv.2.2.2.2.2, ?_, ?_, ?_, ?_⟩
  · exact fitIter_best_fits _ 14 fitInit h12
  · exact fitProbes_le_best_init _ 14 fitInit rfl (by decide)
  · exact fitIter_best_mem _ 14 fitInit
  · intro m
    simp [measuredFits]

/-- Witness for C1 at the monotone linear measurement oracle and the actual
416px inset box of `generateTextIcon`. -/
theorem fitTextToCanvas_spec_witness :
    measuredFits measureLinear 4160 4160 12 = true ∧
    (fitTextProbes measureLinear 4160 4160).length = 14 ∧
    12 ≤ fitTextToCanvas measureLinear 4160 4160 ∧
    fitTextToCanvas measureLinear 4160 4160 ≤ 420 ∧
    measuredFits measureLinear 4160 4160 (fitTextToCanvas measureLinear 4160 4160) = true := by
  have h := fitTextToCanvas_spec measureLinear 4160 4160 (by decide)
  exact ⟨by decide, h.1, h.2.1, h.2.2.1, h.2.2.2.1⟩

/-- C9: `fitTextToCanvas` is total — every run performs exactly 14 probes
and returns a value — and when no size satisfies the fit condition it still
returns the minimum 12 (a size at which the text overflows) instead of
failing or signalling infeasibility. -/
theorem fitTextToCanvas_total_noFit (measure : Nat → TextMetrics) (maxW maxH : Int) :
    (fitTextProbes measure maxW maxH).length = 14 ∧
    ((∀ m : Nat, measuredFits measure maxW maxH m = false) →
      fitTextToCanvas measure maxW maxH = 12) := by
  refine ⟨fitProbes_length _ 14 fitInit, ?_⟩
  intro h
  exact fitIter_best_of_never _ h 14 fitInit

/-- Witness for C9 at the oversized measurement oracle: nothing fits and 12
is returned after 14 probes. -/
theorem fitTextToCanvas_total_noFit_witness :
    (fitTextProbes measureHuge 4160 4160).length = 14 ∧
    fitTextToCanvas measureHuge 4160 4160 = 12 := by
  have h := fitTextToCanvas_total_noFit measureHuge 4160 4160
  exact ⟨h.1, h.2 (fun _ => rfl)⟩

end IconForge
